import Mathlib

/-!
Shallow embedding of the agent-mux repository (orchestrator `index.mjs`,
tmux backend, registry) for checking its natural-language specification.

JavaScript-specific behaviours are modelled explicitly:
* string truthiness (`""` is falsy) via `jsTruthy`,
* `a || b` on optional strings via `jsOrStr`,
* `Array.prototype.slice(-n)` (with its `-0 = 0` quirk) via `jsSliceNeg`.

Optional string fields that JavaScript reads with truthiness checks
(window ids, pane ids) are modelled as `String`, with `""` standing for
an absent/falsy value, matching how the code branches on them.
-/

/-- JavaScript `String.prototype.trim`, modelled structurally on the
character list (kernel-computable, unlike `String.trim`'s iterator
implementation): drop whitespace from both ends. -/
def jsTrim (s : String) : String :=
  ⟨((s.data.dropWhile Char.isWhitespace).reverse.dropWhile Char.isWhitespace).reverse⟩

/-- Helper for `jsSplitChar`: split a character list at a separator. -/
def splitCharAux (sep : Char) : List Char → List (List Char)
  | [] => [[]]
  | c :: cs =>
    let r := splitCharAux sep cs
    if c = sep then [] :: r
    else
      match r with
      | h :: t => (c :: h) :: t
      | [] => [[c]]

/-- JavaScript `s.split(sep)` for a one-character separator, modelled
structurally: the separator-delimited fields of the string (`""` splits
to `[""]`). -/
def jsSplitChar (sep : Char) (s : String) : List String :=
  (splitCharAux sep s.data).map (fun cs => ⟨cs⟩)

/-- JavaScript `s.split("\n")`. -/
def jsSplitLines (s : String) : List String := jsSplitChar '\n' s

/-- Truthiness of an optional JavaScript string: `undefined`/`null` and
`""` are falsy, every other string is truthy. -/
def jsTruthy : Option String → Bool
  | none => false
  | some s => !(s == "")

/-- JavaScript `a || b` on two optional strings: yields `a` when `a` is
truthy, otherwise `b`. -/
def jsOrStr (a b : Option String) : Option String :=
  if jsTruthy a then a else b

/-- JavaScript `arr.slice(-n)` for a non-negative `n`: the last `n`
elements when `n > 0`; the whole array when `n = 0` (since `-0 === 0`,
`slice(-0)` is `slice(0)`). -/
def jsSliceNeg (l : List α) (n : Nat) : List α :=
  if n = 0 then l else l.drop (l.length - n)

/-- `index.mjs` line 16: the closed enumeration of agent types. -/
def ALLOWED_AGENT_TYPES : List String := ["claude", "codex", "gemini"]

/-- A resolved start command: program plus argument list. -/
structure Cmd where
  command : String
  args : List String
deriving Repr, DecidableEq

/-- `buildDefaultCommand` (index.mjs lines 75-80); the unsupported-type
throw is modelled as `none`. -/
def buildDefaultCommand (type : String) : Option Cmd :=
  if type == "claude" then some ⟨"claude", ["--dangerously-skip-permissions"]⟩
  else if type == "codex" then some ⟨"codex", ["--yolo"]⟩
  else if type == "gemini" then some ⟨"gemini", ["--yolo"]⟩
  else none

/-- The `options` object accepted by `spawn_agent` (cwd / command / cmd /
args keys, each possibly absent). -/
structure SpawnOptions where
  cwd : Option String := none
  command : Option String := none
  cmd : Option String := none
  args : Option (List String) := none
deriving Repr, DecidableEq

/-- index.mjs lines 204-206: the base command used by `spawn_agent` —
`options?.command || options?.cmd ? {command: String(...), args: []}
: buildDefaultCommand(agentType)`. -/
def resolveBaseCmd (agentType : String) (opts : SpawnOptions) : Option Cmd :=
  if jsTruthy (jsOrStr opts.command opts.cmd) then
    some ⟨(jsOrStr opts.command opts.cmd).getD "", []⟩
  else buildDefaultCommand agentType

/-- index.mjs lines 207-208: `extraArgs` and the final merged command
`{command: baseCmd.command, args: [...baseCmd.args, ...extraArgs]}`. -/
def resolveSpawnCmd (agentType : String) (opts : SpawnOptions) : Option Cmd :=
  (resolveBaseCmd agentType opts).map
    (fun base => ⟨base.command, base.args ++ (opts.args.getD [])⟩)

/-- ASCII alphanumeric, the JavaScript character class `[a-zA-Z0-9]`. -/
def isAsciiAlnum (c : Char) : Bool := c.isAlpha || c.isDigit

/-- A continuation character of the name grammar: `[a-zA-Z0-9._-]`. -/
def isNameTail (c : Char) : Bool :=
  isAsciiAlnum c || c == '.' || c == '_' || c == '-'

/-- The regex `/^[a-zA-Z0-9][a-zA-Z0-9._-]{0,127}$/` of index.mjs line 24,
as a predicate on a string: first character alphanumeric, at most 127
further characters each in the continuation class. -/
def safeNamePattern (n : String) : Bool :=
  match n.data with
  | [] => false
  | c :: cs => isAsciiAlnum c && cs.length ≤ 127 && cs.all isNameTail

deriving instance DecidableEq for Except

/-- The error taxonomy of the orchestrator (spec §7), as raised by the
`throw new Error(...)` sites of the source. -/
inductive MuxError where
  | invalidName (kind name : String)
  | unsupportedAgentType (t : String)
  | noCurrentProject
  | sessionNotFound (project : String)
  | agentAlreadyExists (agent project : String)
  | agentNotFound (agent project : String)
  | backendCommandError (msg : String)
  | noPaneFound (target : String)
deriving Repr, DecidableEq

/-- `assertSafeName` (index.mjs lines 18-30): rejects a string that is
empty after trimming, then validates the TRIMMED string against the
grammar and returns the trimmed string on success. Both throw sites are
the spec's `InvalidName`. -/
def assertSafeName (kind name : String) : Except MuxError String :=
  if (jsTrim name).length == 0 then .error (.invalidName kind name)
  else
    let n := jsTrim name
    if safeNamePattern n then .ok n else .error (.invalidName kind name)

/-! ## Tmux backend model (tmux-backend source file)

The backend is modelled as explicit state: a list of sessions, each with
its windows; each window has an id, numeric index, name, a list of pane
ids, and the window options set on it. `nextWinNum`/`nextPaneNum` model
tmux's allocation of fresh `@N` window ids and `%N` pane ids. `pipes`
records, per pane id, the sink path of the active `pipe-pane`
redirection (the `cat >> <log>` shell command is abstracted to the log
path it appends to). -/

structure TmuxWindow where
  windowId : String
  windowIndex : Nat
  windowName : String
  panes : List String
  tags : List (String × String) := []
deriving Repr, DecidableEq

structure TmuxSession where
  name : String
  windows : List TmuxWindow
deriving Repr, DecidableEq

structure TmuxState where
  sessions : List TmuxSession
  nextWinNum : Nat := 0
  nextPaneNum : Nat := 0
  pipes : List (String × String) := []
deriving Repr, DecidableEq

/-- `hasSession` (tmux backend): the `has-session` existence probe. -/
def hasSession (t : TmuxState) (name : String) : Bool :=
  t.sessions.any (fun s => s.name == name)

/-- `listSessions`: the session names. -/
def listSessions (t : TmuxState) : List String :=
  t.sessions.map (·.name)

/-- `listWindows(session)`: the windows of a session, `[]` when the
session does not exist (the backend returns `[]` on a failed
`list-windows`). -/
def listWindows (t : TmuxState) (session : String) : List TmuxWindow :=
  match t.sessions.find? (fun s => s.name == session) with
  | some s => s.windows
  | none => []

/-- `createSession(name, cwd?)` (tmux backend lines 81-87): idempotent —
returns `created=false` and leaves the state unchanged when the session
already exists; otherwise creates a detached session with an initial
`main` window holding one pane. -/
def createSession (t : TmuxState) (name : String) : TmuxState × Bool :=
  if hasSession t name then (t, false)
  else
    let win : TmuxWindow :=
      { windowId := "@" ++ toString t.nextWinNum
        windowIndex := 0
        windowName := "main"
        panes := ["%" ++ toString t.nextPaneNum] }
    ({ t with
        sessions := t.sessions ++ [⟨name, [win]⟩]
        nextWinNum := t.nextWinNum + 1
        nextPaneNum := t.nextPaneNum + 1 }, true)

/-- `killSession(name)`: removes the session; a missing session makes the
underlying `kill-session` exit non-zero, raising `BackendCommandError`. -/
def killSession (t : TmuxState) (name : String) : Except MuxError TmuxState :=
  if hasSession t name then
    .ok { t with sessions := t.sessions.filter (fun s => !(s.name == name)) }
  else .error (.backendCommandError ("kill-session -t " ++ name))

/-- `createWindow` (tmux backend lines 95-116): creates a detached window
with one pane in the target session, allocating fresh window/pane ids;
fails with a backend error when the target session does not exist. -/
def createWindow (t : TmuxState) (session windowName : String) :
    Except MuxError (TmuxState × TmuxWindow) :=
  match t.sessions.find? (fun s => s.name == session) with
  | none => .error (.backendCommandError ("new-window -t " ++ session))
  | some s =>
    let win : TmuxWindow :=
      { windowId := "@" ++ toString t.nextWinNum
        windowIndex := s.windows.length
        windowName := windowName
        panes := ["%" ++ toString t.nextPaneNum] }
    .ok ({ t with
            sessions := t.sessions.map
              (fun s0 => if s0.name == session then
                  { s0 with windows := s0.windows ++ [win] } else s0)
            nextWinNum := t.nextWinNum + 1
            nextPaneNum := t.nextPaneNum + 1 }, win)

/-- `killWindow(target)`: removes the window whose id is `target` from
whichever session holds it; with no such window the underlying
`kill-window` exits non-zero. -/
def killWindow (t : TmuxState) (target : String) : Except MuxError TmuxState :=
  if t.sessions.any (fun s => s.windows.any (fun w => w.windowId == target)) then
    .ok { t with
            sessions := t.sessions.map
              (fun s => { s with windows := s.windows.filter (fun w => !(w.windowId == target)) }) }
  else .error (.backendCommandError ("kill-window -t " ++ target))

/-- `getWindowFirstPaneId` (tmux backend lines 146-154): the first pane id
of the window, `NoPaneFound` when the window has none (or the window
target does not resolve). -/
def getWindowFirstPaneId (t : TmuxState) (windowTarget : String) :
    Except MuxError String :=
  match t.sessions.findSome?
      (fun s => s.windows.find? (fun w => w.windowId == windowTarget)) with
  | some w =>
    match w.panes with
    | p :: _ => .ok p
    | [] => .error (.noPaneFound windowTarget)
  | none => .error (.noPaneFound windowTarget)

/-- `setWindowOption`: records a window option on the target window; a
missing window makes the underlying `set-option` fail. -/
def setWindowOption (t : TmuxState) (windowTarget key value : String) :
    Except MuxError TmuxState :=
  if t.sessions.any (fun s => s.windows.any (fun w => w.windowId == windowTarget)) then
    .ok { t with
            sessions := t.sessions.map
              (fun s => { s with
                  windows := s.windows.map
                    (fun w => if w.windowId == windowTarget then
                        { w with tags := w.tags ++ [(key, value)] } else w) }) }
  else .error (.backendCommandError ("set-option -w -t " ++ windowTarget))

/-- `pipePane` without `-o`: replaces the pane's output redirection (the
shell command abstracted to its sink path); fails when the pane target
does not resolve. -/
def pipePane (t : TmuxState) (paneTarget sinkPath : String) :
    Except MuxError TmuxState :=
  if t.sessions.any (fun s => s.windows.any (fun w => w.panes.contains paneTarget)) then
    .ok { t with
            pipes := (t.pipes.filter (fun q => !(q.1 == paneTarget))) ++ [(paneTarget, sinkPath)] }
  else .error (.backendCommandError ("pipe-pane -t " ++ paneTarget))

/-- How a `send-keys`/`select-window` target string resolves: either a
raw window/pane id carried in the state, or a `session:window` pair
naming an existing window of an existing session (by name or index). -/
def targetResolves (t : TmuxState) (target : String) : Bool :=
  (t.sessions.any fun s => s.windows.any fun w =>
      w.windowId == target || w.panes.contains target) ||
  (match jsSplitChar ':' target with
   | [sess, win] =>
     match t.sessions.find? (fun s => s.name == sess) with
     | some s => s.windows.any
         (fun w => w.windowName == win || toString w.windowIndex == win)
     | none => false
   | _ => false)

/-- `sendKeys`: issues `send-keys -t target ...`; the pane content itself
is not modelled, only success (target resolves) versus the backend error
of a non-zero exit. -/
def sendKeys (t : TmuxState) (target : String) : Except MuxError Unit :=
  if targetResolves t target then .ok ()
  else .error (.backendCommandError ("send-keys -t " ++ target))

/-! ## Registry model (registry source file)

The registry's on-disk content is modelled as a keyed store: for each
project directory, the optional `project.json` contents, the optional
`agents.json` contents, and the file names present under `logs/`. The
`current.json` pointer is a single optional name. The per-call choice of
storage root (`_getProjectsDir`) is modelled separately below for the
root-selection claim; this store abstracts the root actually targeted,
which is single-valued while the primary root's writability is stable. -/

/-- Contents of a `project.json` metadata file. -/
structure ProjectMeta where
  name : String
  cwd : Option String
deriving Repr, DecidableEq

/-- One registry agent entry, as persisted in `agents.json`. String
fields that JavaScript tests for truthiness (`windowId`, `paneId`) use
`""` for an absent value. `aliveStored` models an `alive` key possibly
present in the stored JSON object (the source never writes one, but the
file is external input); the object spread in `list_agents` overwrites
it. -/
structure AgentEntry where
  name : String
  type : String
  project : String
  windowId : String
  windowIndex : Nat
  paneId : String
  cwd : String
  command : Cmd
  logPath : String
  aliveStored : Option Bool := none
deriving Repr, DecidableEq

/-- The files of one project directory under the storage root. -/
structure ProjectStore where
  meta : Option ProjectMeta := none
  agentsFile : Option (List AgentEntry) := none
  logFiles : List String := []
deriving Repr, DecidableEq

/-- The registry's durable state: project directories plus the
`current.json` pointer (`none` = file absent). -/
structure RegistryState where
  projects : List (String × ProjectStore)
  currentProject : Option String := none
deriving Repr, DecidableEq

/-- The store of a project directory, when the directory exists. -/
def projectStoreOf (r : RegistryState) (p : String) : Option ProjectStore :=
  (r.projects.find? (fun q => q.1 == p)).map (·.2)

/-- Replace the store of one project (directory names are unique keys on
the filesystem, so the first matching entry is the entry), appending a
new entry when the directory does not exist yet. -/
def upsertStore : List (String × ProjectStore) → String → ProjectStore →
    List (String × ProjectStore)
  | [], p, st => [(p, st)]
  | q :: qs, p, st =>
    if q.1 == p then (p, st) :: qs else q :: upsertStore qs p st

/-- `loadAgents` (registry lines 156-162): the parsed `agents.json` agent
list, with the defined fallback of an empty list when the file is
missing. -/
def loadAgents (r : RegistryState) (p : String) : List AgentEntry :=
  match projectStoreOf r p with
  | some st => st.agentsFile.getD []
  | none => []

/-- `saveAgents` (registry lines 164-170): full-replace atomic write of
`agents.json` (also materialises the project directory, as the atomic
write creates parent directories). -/
def saveAgents (r : RegistryState) (p : String) (agents : List AgentEntry) :
    RegistryState :=
  let st := (projectStoreOf r p).getD {}
  { r with projects := upsertStore r.projects p { st with agentsFile := some agents } }

/-- `loadProjectMeta` (registry lines 144-146): parsed `project.json`,
`none` when missing. -/
def loadProjectMeta (r : RegistryState) (p : String) : Option ProjectMeta :=
  (projectStoreOf r p).bind (·.meta)

/-- `ensureProject` (registry lines 110-142). The `meta` argument
models the JavaScript `meta` object: `none` is the empty object `{}`;
`some c` is `{cwd: c}` with `c` the (possibly null) resolved cwd. When
`project.json` is absent it is created, with `cwd` set by
`meta.cwd ? String(meta.cwd) : null`; when present and `meta` is
non-empty, `meta`'s fields are spread over the existing record. An
absent `agents.json` is initialised to an empty agent list. -/
def ensureStore (cur : Option ProjectStore) (p : String)
    (meta : Option (Option String)) : ProjectStore :=
  let st := cur.getD {}
  let st1 : ProjectStore :=
    match st.meta with
    | none =>
      { st with meta := some ⟨p, if jsTruthy (meta.getD none) then meta.getD none else none⟩ }
    | some _ =>
      match meta with
      | none => st
      | some c => { st with meta := some ⟨p, c⟩ }
  match st1.agentsFile with
  | none => { st1 with agentsFile := some [] }
  | some _ => st1

/-- `ensureProject` proper: replace the project's store with the ensured
one. -/
def ensureProject (r : RegistryState) (p : String)
    (meta : Option (Option String)) : RegistryState :=
  { r with projects := upsertStore r.projects p (ensureStore (projectStoreOf r p) p meta) }

/-- `getCurrentProject` (registry lines 172-176): `data?.name || null`,
so a stored empty name also reads as "no current project". -/
def getCurrentProject (r : RegistryState) : Option String :=
  match r.currentProject with
  | some n => if n == "" then none else some n
  | none => none

/-- `setCurrentProject`: atomic write of `current.json`. -/
def setCurrentProject (r : RegistryState) (p : String) : RegistryState :=
  { r with currentProject := some p }

/-- `clearCurrentProject`: unlinks `current.json` (missing file
ignored). -/
def clearCurrentProject (r : RegistryState) : RegistryState :=
  { r with currentProject := none }

/-- `getAgentLogPath` (registry lines 92-94), with the storage root
abstracted to the project name:
`<projectsDir>/<project>/logs/<agent>.log`. -/
def getAgentLogPath (project agent : String) : String :=
  project ++ "/logs/" ++ agent ++ ".log"

/-- The `fs.openSync(logPath, "a")` step of `spawn_agent`: create the
agent's log file if absent, never truncating an existing one (log
contents are not modelled, only file presence). -/
def ensureLogFile (r : RegistryState) (p agent : String) : RegistryState :=
  let st := (projectStoreOf r p).getD {}
  let st1 :=
    if st.logFiles.contains (agent ++ ".log") then st
    else { st with logFiles := st.logFiles ++ [agent ++ ".log"] }
  { r with projects := upsertStore r.projects p st1 }

/-! ## Storage-root selection (registry lines 50-74)

Modelled separately from the keyed store above: the constructor computes
the primary and fallback directory paths once, but `_getProjectsDir`
consults the filesystem's writability of `.ccx` at EVERY call. The
writability at the moment of a call is passed in as a boolean oracle. -/

/-- The path fields set once by the `AgentRegistry` constructor
(registry lines 51-58), with `path.join` as `/`-concatenation. -/
structure RegistryPaths where
  ccxDir : String
  projectsDir : String
  fallbackProjectsDir : String
deriving Repr, DecidableEq

/-- The constructor's path computation: primary under
`<projectRoot>/.ccx/projects`, fallback under
`<tmpdir>/ccx-agent-mux/projects`. -/
def registryPathsOf (projectRoot tmpdir : String) : RegistryPaths :=
  { ccxDir := projectRoot ++ "/.ccx"
    projectsDir := projectRoot ++ "/.ccx/projects"
    fallbackProjectsDir := tmpdir ++ "/ccx-agent-mux/projects" }

/-- `_getProjectsDir` (registry lines 71-74): every registry path
computation re-tests `canWrite(this.ccxDir)` at call time and picks the
primary or fallback root accordingly. `canWriteCcx` is the writability
of `ccxDir` at the moment of this call. -/
def getProjectsDirAt (r : RegistryPaths) (canWriteCcx : Bool) : String :=
  if canWriteCcx then r.projectsDir else r.fallbackProjectsDir

/-! ## Orchestrator model (`AgentMux`, index.mjs)

Each operation threads the whole state explicitly and returns the state
TOGETHER with the outcome, so that mutations performed before a throw
(e.g. `ensureProject` before the duplicate-name check) are visible on
the error path exactly as the JavaScript side effects are. `path.resolve`
is abstracted to the identity on the given string (inputs are treated as
already absolute); `process.cwd()` is the `processCwd` field. -/

structure MuxState where
  tmux : TmuxState
  registry : RegistryState
  processCwd : String := "/"
deriving Repr, DecidableEq

/-- `path.resolve(String(x))`, abstracted: resolution of relative paths
is not modelled, the string is taken as already absolute. -/
def path_resolve (s : String) : String := s

/-- `_requireCurrentProject` (index.mjs lines 92-96): the current-project
pointer, `NoCurrentProject` when unset (or stored falsy). -/
def requireCurrentProject (r : RegistryState) : Except MuxError String :=
  match getCurrentProject r with
  | some n => .ok n
  | none => .error .noCurrentProject

/-- `create_project(name, cwd?)` (index.mjs lines 108-123). -/
structure CreateResult where
  project : String
  cwd : Option String
  created : Bool
deriving Repr, DecidableEq

def create_project (s : MuxState) (name : String) (cwd : Option String) :
    MuxState × Except MuxError CreateResult :=
  match assertSafeName "project" name with
  | .error e => (s, .error e)
  | .ok project =>
    let resolvedCwd := if jsTruthy cwd then some (path_resolve (cwd.getD "")) else none
    let reg1 := ensureProject s.registry project (some resolvedCwd)
    let (t1, created) := createSession s.tmux project
    let reg2 := setCurrentProject reg1 project
    ({ s with tmux := t1, registry := reg2 },
     .ok ⟨project, resolvedCwd, created⟩)

/-- `close_project(name)` (index.mjs lines 164-177). `killSession` is
only issued under a `hasSession` guard, so within the model it cannot
fail; its hypothetical failure would propagate (the call is not wrapped
in try/catch). -/
structure CloseResult where
  project : String
  killed : Bool
  clearedCurrent : Bool
deriving Repr, DecidableEq

def close_project (s : MuxState) (name : String) :
    MuxState × Except MuxError CloseResult :=
  match assertSafeName "project" name with
  | .error e => (s, .error e)
  | .ok project =>
    let current := getCurrentProject s.registry
    if hasSession s.tmux project then
      match killSession s.tmux project with
      | .error e => (s, .error e)
      | .ok t1 =>
        let reg1 := if current == some project then clearCurrentProject s.registry
                    else s.registry
        ({ s with tmux := t1, registry := reg1 },
         .ok ⟨project, true, current == some project⟩)
    else
      let reg1 := if current == some project then clearCurrentProject s.registry
                  else s.registry
      ({ s with registry := reg1 },
       .ok ⟨project, false, current == some project⟩)

/-- `spawn_agent(type, name, options)` (index.mjs lines 180-255),
following the source's order of checks and effects: current project,
agent-name validation, type validation, session existence, registry
`ensureProject`, duplicate-name check, cwd resolution, command
resolution and argument merge, window creation, metadata tags, first
pane lookup, log-file creation, pipe setup, registry save. -/
def spawn_agent (s : MuxState) (type name : String) (opts : SpawnOptions) :
    MuxState × Except MuxError AgentEntry :=
  match requireCurrentProject s.registry with
  | .error e => (s, .error e)
  | .ok project =>
  match assertSafeName "agent" name with
  | .error e => (s, .error e)
  | .ok agentName =>
  let agentType := jsTrim type
  if !(ALLOWED_AGENT_TYPES.contains agentType) then
    (s, .error (.unsupportedAgentType type))
  else if !(hasSession s.tmux project) then
    (s, .error (.sessionNotFound project))
  else
  let reg1 := ensureProject s.registry project none
  let agentsData := loadAgents reg1 project
  if agentsData.any (fun a => a.name == agentName) then
    ({ s with registry := reg1 }, .error (.agentAlreadyExists agentName project))
  else
  let projectMeta := loadProjectMeta reg1 project
  let defaultCwd := if jsTruthy (projectMeta.bind (·.cwd)) then
                      (projectMeta.bind (·.cwd)).getD "" else s.processCwd
  let agentCwd := if jsTruthy opts.cwd then path_resolve (opts.cwd.getD "")
                  else defaultCwd
  match resolveSpawnCmd agentType opts with
  | none => ({ s with registry := reg1 }, .error (.unsupportedAgentType agentType))
  | some cmd =>
  match createWindow s.tmux project agentName with
  | .error e => ({ s with registry := reg1 }, .error e)
  | .ok (t1, win) =>
  match setWindowOption t1 win.windowId "@ccx_agent_name" agentName with
  | .error e => ({ s with tmux := t1, registry := reg1 }, .error e)
  | .ok t2 =>
  match setWindowOption t2 win.windowId "@ccx_agent_type" agentType with
  | .error e => ({ s with tmux := t2, registry := reg1 }, .error e)
  | .ok t3 =>
  match getWindowFirstPaneId t3 win.windowId with
  | .error e => ({ s with tmux := t3, registry := reg1 }, .error e)
  | .ok paneId =>
  let logPath := getAgentLogPath project agentName
  let reg2 := ensureLogFile reg1 project agentName
  match pipePane t3 paneId logPath with
  | .error e => ({ s with tmux := t3, registry := reg2 }, .error e)
  | .ok t4 =>
  let entry : AgentEntry :=
    { name := agentName
      type := agentType
      project := project
      windowId := win.windowId
      windowIndex := win.windowIndex
      paneId := paneId
      cwd := agentCwd
      command := cmd
      logPath := logPath }
  let reg3 := saveAgents reg2 project (agentsData ++ [entry])
  ({ s with tmux := t4, registry := reg3 }, .ok entry)

/-- `list_agents(project?)` (index.mjs lines 257-274): read-only; each
entry is returned spread together with the derived `alive` flag, which
overwrites any `alive` key the stored JSON may have carried. -/
def list_agents (s : MuxState) (project : Option String) :
    Except MuxError (String × List (AgentEntry × Bool)) :=
  match (if jsTruthy project then assertSafeName "project" (project.getD "")
         else requireCurrentProject s.registry) with
  | .error e => .error e
  | .ok proj =>
    let data := loadAgents s.registry proj
    let windowIds : List String :=
      if hasSession s.tmux proj then (listWindows s.tmux proj).map (·.windowId)
      else []
    .ok (proj,
      data.map (fun a =>
        (a, if !(a.windowId == "") then windowIds.contains a.windowId else false)))

/-- `kill_agent(name)` (index.mjs lines 334-350): `_loadAgent` lookup,
best-effort `killWindow` whose failure is caught and discarded, then
unconditional removal from the agent list and `saveAgents`. -/
def kill_agent (s : MuxState) (name : String) :
    MuxState × Except MuxError (String × String) :=
  match requireCurrentProject s.registry with
  | .error e => (s, .error e)
  | .ok project =>
  match assertSafeName "agent" name with
  | .error e => (s, .error e)
  | .ok agentName =>
  let data := loadAgents s.registry project
  match data.find? (fun a => a.name == agentName) with
  | none => (s, .error (.agentNotFound agentName project))
  | some agent =>
    let target := if !(agent.windowId == "") then agent.windowId
                  else project ++ ":" ++ toString agent.windowIndex
    let t1 := match killWindow s.tmux target with
              | .ok t => t
              | .error _ => s.tmux
    let nextAgents := data.filter (fun a => !(a.name == agentName))
    let reg1 := saveAgents s.registry project nextAgents
    ({ s with tmux := t1, registry := reg1 }, .ok (project, agentName))

/-- `send_to_window(windowName, text)` (index.mjs lines 294-304): no name
validation, no registry lookup; addresses `<project>:<windowName>`
directly with two `send-keys` commands (literal text, then Enter). -/
structure SendResult where
  project : String
  window : String
  bytes : Nat
deriving Repr, DecidableEq

def send_to_window (s : MuxState) (windowName text : String) :
    MuxState × Except MuxError SendResult :=
  match requireCurrentProject s.registry with
  | .error e => (s, .error e)
  | .ok project =>
    let target := project ++ ":" ++ windowName
    match sendKeys s.tmux target with
    | .error e => (s, .error e)
    | .ok _ =>
      match sendKeys s.tmux target with
      | .error e => (s, .error e)
      | .ok _ => (s, .ok ⟨project, windowName, text.utf8ByteSize⟩)

/-- `read_agent_output(name, lines)` (index.mjs lines 306-323). The
`capture` oracle stands for `tmux.capturePane`: given a pane id and the
`history` scrollback argument, the raw captured text. The requested
line count is used both for the scrollback window
(`Math.max(lines * 10, 2000)`) and the trailing `slice(-lines)`. -/
def read_agent_output (s : MuxState) (capture : String → Nat → String)
    (name : String) (lines : Nat) :
    Except MuxError (String × String × String) :=
  match requireCurrentProject s.registry with
  | .error e => .error e
  | .ok project =>
  match assertSafeName "agent" name with
  | .error e => .error e
  | .ok agentName =>
  match (loadAgents s.registry project).find? (fun a => a.name == agentName) with
  | none => .error (.agentNotFound agentName project)
  | some agent =>
  match (if !(agent.paneId == "") then .ok agent.paneId
         else getWindowFirstPaneId s.tmux agent.windowId) with
  | .error e => .error e
  | .ok paneId =>
    let rawOutput := capture paneId (max (lines * 10) 2000)
    let outputLines :=
      jsSliceNeg ((jsSplitLines rawOutput).filter (fun l => 0 < (jsTrim l).length)) lines
    .ok (project, agentName, String.intercalate "\n" outputLines)

/-! Concrete states for witnesses: a project `p` whose session exists
with its `main` window, registered with cwd `/w`, selected as the
current project, and with an empty agent list. -/

def wTmux : TmuxState :=
  { sessions := [⟨"p", [⟨"@0", 0, "main", ["%0"], []⟩]⟩]
    nextWinNum := 1, nextPaneNum := 1 }

def wReg : RegistryState :=
  { projects := [("p", { meta := some ⟨"p", some "/w"⟩, agentsFile := some [] })]
    currentProject := some "p" }

def wState : MuxState := { tmux := wTmux, registry := wReg, processCwd := "/" }

def wOpts1 : SpawnOptions := ⟨none, none, none, some ["-x"]⟩

/-- The entry `spawn_agent wState "claude" "a1" wOpts1` creates. -/
def wEntry1 : AgentEntry :=
  { name := "a1", type := "claude", project := "p", windowId := "@1"
    windowIndex := 1, paneId := "%1", cwd := "/w"
    command := ⟨"claude", ["--dangerously-skip-permissions", "-x"]⟩
    logPath := "p/logs/a1.log" }

/-- Parsed `agents.json` contents of a project, when the file exists
(`loadAgents` is this with the empty-list fallback applied). -/
def agentsFileOf (r : RegistryState) (p : String) : Option (List AgentEntry) :=
  (projectStoreOf r p).bind (fun st => st.agentsFile)

/-- `wState` after spawning agent `a1`, plus a window `bad name!` created
out-of-band (tmux window names are unrestricted), for witnesses. -/
def wTmux2 : TmuxState :=
  { sessions := [⟨"p", [⟨"@0", 0, "main", ["%0"], []⟩,
      ⟨"@1", 1, "a1", ["%1"], [("@ccx_agent_name", "a1"), ("@ccx_agent_type", "claude")]⟩,
      ⟨"@2", 2, "bad name!", ["%2"], []⟩]⟩]
    nextWinNum := 3, nextPaneNum := 3, pipes := [("%1", "p/logs/a1.log")] }

def wReg2 : RegistryState :=
  { projects :=
      [("p",
        { meta := some ⟨"p", some "/w"⟩
          agentsFile := some [wEntry1]
          logFiles := ["a1.log"] })]
    currentProject := some "p" }

def wState2 : MuxState := { tmux := wTmux2, registry := wReg2, processCwd := "/" }

/-- `wState2` after the `a1` window (and the extra window) died
out-of-band: the registry still lists `a1`, the backend no longer has
its window. -/
def wStateDead : MuxState :=
  { tmux := { sessions := [⟨"p", [⟨"@0", 0, "main", ["%0"], []⟩]⟩]
              nextWinNum := 3, nextPaneNum := 3, pipes := [("%1", "p/logs/a1.log")] }
    registry := wReg2, processCwd := "/" }

/-- A capture oracle for witnesses: every pane reads back two non-blank
lines. -/
def wCapture : String → Nat → String := fun _ _ => "x\ny"

/-! ## Verification of the specified properties -/

/-- A successful `spawn_agent` stores exactly the resolved merged
command on the created entry. -/
lemma spawn_ok_command (s : MuxState) (ty nm : String) (opts : SpawnOptions)
    (e : AgentEntry) (h : (spawn_agent s ty nm opts).2 = .ok e) :
    resolveSpawnCmd (jsTrim ty) opts = some e.command := by
  simp only [spawn_agent] at h
  repeat' split at h
  all_goals (first
    | (simp at h ; done)
    | (simp at h ; rw [← h] ; simp_all))

/-- Shape of the resolved merged command: its program is the base
command's program and its arguments are the base command's arguments
followed by the explicit extra arguments; with a truthy override the
base is the override program with no base arguments, otherwise the base
is the type's default command. -/
lemma resolveSpawnCmd_spec (t : String) (opts : SpawnOptions) (c : Cmd)
    (h : resolveSpawnCmd t opts = some c) :
    ∃ base : Cmd,
      resolveBaseCmd t opts = some base ∧
      c.command = base.command ∧
      c.args = base.args ++ (opts.args.getD []) ∧
      (jsTruthy (jsOrStr opts.command opts.cmd) = true →
        base = ⟨(jsOrStr opts.command opts.cmd).getD "", []⟩) ∧
      (jsTruthy (jsOrStr opts.command opts.cmd) = false →
        buildDefaultCommand t = some base) := by
  unfold resolveSpawnCmd at h
  rcases hb : resolveBaseCmd t opts with _ | base
  · rw [hb] at h; simp at h
  · rw [hb] at h
    simp only [Option.map_some', Option.some.injEq] at h
    refine ⟨base, rfl, ?_, ?_, ?_, ?_⟩
    · rw [← h]
    · rw [← h]
    · intro htrue
      simp only [resolveBaseCmd, htrue, if_true, Option.some.injEq] at hb
      exact hb.symm
    · intro hfalse
      simp only [resolveBaseCmd, hfalse, Bool.false_eq_true, if_false] at hb
      exact hb

/-- Claim C1 (argument merge law for `spawn_agent`): every entry a
successful spawn stores carries the resolved base command's program,
and its argument list is the base command's own arguments with the
explicit extra arguments appended after them — never replacing them;
an explicit `command`/`cmd` override replaces only the program (it
contributes an empty base argument list), while without an override the
base is the agent type's default command with its default arguments. -/
theorem c1_argument_merge (s : MuxState) (ty nm : String) (opts : SpawnOptions)
    (e : AgentEntry) (h : (spawn_agent s ty nm opts).2 = .ok e) :
    ∃ base : Cmd,
      resolveBaseCmd (jsTrim ty) opts = some base ∧
      e.command.command = base.command ∧
      e.command.args = base.args ++ (opts.args.getD []) ∧
      (jsTruthy (jsOrStr opts.command opts.cmd) = true →
        base = ⟨(jsOrStr opts.command opts.cmd).getD "", []⟩) ∧
      (jsTruthy (jsOrStr opts.command opts.cmd) = false →
        buildDefaultCommand (jsTrim ty) = some base) :=
  resolveSpawnCmd_spec (jsTrim ty) opts e.command (spawn_ok_command s ty nm opts e h)

/-- Witness for C1: spawning a `claude` agent with extra args `["-x"]`
merges them after the default arguments. -/
theorem c1_argument_merge_witness :
    ∃ base : Cmd,
      resolveBaseCmd (jsTrim "claude") wOpts1 = some base ∧
      wEntry1.command.command = base.command ∧
      wEntry1.command.args = base.args ++ (wOpts1.args.getD []) ∧
      (jsTruthy (jsOrStr wOpts1.command wOpts1.cmd) = true →
        base = ⟨(jsOrStr wOpts1.command wOpts1.cmd).getD "", []⟩) ∧
      (jsTruthy (jsOrStr wOpts1.command wOpts1.cmd) = false →
        buildDefaultCommand (jsTrim "claude") = some base) :=
  c1_argument_merge wState "claude" "a1" wOpts1 wEntry1 (by decide)

/-- A string with an empty character list fails the name grammar. -/
lemma safeNamePattern_of_nil (s : String) (h : s.data = []) :
    safeNamePattern s = false := by
  unfold safeNamePattern
  rw [h]

/-- Counterexample to claim C7 as stated: the name `" a "` fails the
grammar (its first character is a space), yet `create_project` accepts
it — `assertSafeName` validates the TRIMMED name and returns it, so a
grammar-failing name is accepted under the trimming transformation. -/
theorem c7_name_validation_counterexample :
    safeNamePattern " a " = false ∧
    assertSafeName "project" " a " = .ok "a" ∧
    (create_project wState " a " none).2 = .ok ⟨"a", none, true⟩ := by
  decide

/-- Claim C7 amended: `assertSafeName` raises `InvalidName` exactly when
the TRIMMED name fails the grammar (first character alphanumeric,
continuation characters alphanumeric or `.`/`_`/`-`, total length at
most 128), and on success returns the trimmed name. -/
theorem c7_name_validation (kind name : String) :
    assertSafeName kind name =
      (if safeNamePattern (jsTrim name) = true then .ok (jsTrim name)
       else .error (.invalidName kind name)) := by
  unfold assertSafeName
  split
  · next h0 =>
    have hd : (jsTrim name).data = [] := by
      have h1 : (jsTrim name).length = 0 := by
        simpa using h0
      exact List.eq_nil_of_length_eq_zero h1
    rw [safeNamePattern_of_nil _ hd]
    simp
  · rfl

/-- Counterexample to claim C2 as stated: with the path layout computed
once at construction, a call made while the primary `.ccx` directory is
writable and a call made while it is not target DIFFERENT roots —
`_getProjectsDir` re-tests writability at every call, so the choice is
not fixed once per process. -/
theorem c2_root_counterexample :
    getProjectsDirAt (registryPathsOf "/repo" "/tmp") true ≠
      getProjectsDirAt (registryPathsOf "/repo" "/tmp") false := by
  decide

/-- Claim C2 amended: root selection is per call, but any sequence of
registry accesses that all observe the same writability of the primary
root target one and the same root; in particular a process whose
primary root is never writable consistently targets the fallback root. -/
theorem c2_root_per_call (r : RegistryPaths) (ws : List Bool) (w : Bool)
    (h : ∀ x ∈ ws, x = w) :
    ∀ d ∈ ws.map (getProjectsDirAt r), d = getProjectsDirAt r w := by
  intro d hd
  simp only [List.mem_map] at hd
  obtain ⟨x, hx, rfl⟩ := hd
  rw [h x hx]

/-- Witness for C2 amended: an access of a three-call trace under an
unwritable primary root targets the same (fallback) root as the others. -/
theorem c2_root_per_call_witness :
    getProjectsDirAt (registryPathsOf "/repo" "/tmp") false ∈
      ([false, false, false].map (getProjectsDirAt (registryPathsOf "/repo" "/tmp"))) ∧
    getProjectsDirAt (registryPathsOf "/repo" "/tmp") false =
      getProjectsDirAt (registryPathsOf "/repo" "/tmp") false :=
  ⟨by decide,
    c2_root_per_call (registryPathsOf "/repo" "/tmp") [false, false, false] false
      (by decide) (getProjectsDirAt (registryPathsOf "/repo" "/tmp") false) (by decide)⟩

/-! Registry store lemmas: how `upsertStore` affects lookups. -/

lemma upsertStore_find_self (p : String) (st : ProjectStore) :
    ∀ ps : List (String × ProjectStore),
    (upsertStore ps p st).find? (fun q => q.1 == p) = some (p, st) := by
  intro ps
  induction ps with
  | nil => simp [upsertStore, List.find?_cons]
  | cons hd tl ih =>
    by_cases h : hd.1 = p
    · simp [upsertStore, h, List.find?_cons]
    · simp [upsertStore, h, List.find?_cons, ih]

lemma upsertStore_find_other (p : String) (st : ProjectStore) (q : String)
    (hq : ¬ q = p) :
    ∀ ps : List (String × ProjectStore),
    (upsertStore ps p st).find? (fun r => r.1 == q) = ps.find? (fun r => r.1 == q) := by
  intro ps
  have hpq : ¬ p = q := fun h => hq h.symm
  induction ps with
  | nil => simp [upsertStore, List.find?_cons, hpq]
  | cons hd tl ih =>
    by_cases h : hd.1 = p
    · simp [upsertStore, h, List.find?_cons, hpq]
    · have hb : (hd.1 == p) = false := by simpa using h
      by_cases h2 : hd.1 = q
      · simp only [upsertStore, hb, Bool.false_eq_true, if_false]
        simp [List.find?_cons, h2]
      · simp only [upsertStore, hb, Bool.false_eq_true, if_false]
        simp [List.find?_cons, h2, ih]

lemma projectStoreOf_upsert (ps : List (String × ProjectStore)) (cur : Option String)
    (p : String) (st : ProjectStore) (q : String) :
    projectStoreOf ⟨upsertStore ps p st, cur⟩ q =
      if q = p then some st else projectStoreOf ⟨ps, cur⟩ q := by
  unfold projectStoreOf
  by_cases hq : q = p
  · subst hq
    rw [upsertStore_find_self]
    simp
  · rw [upsertStore_find_other p st q hq, if_neg hq]

lemma projectStoreOf_ensureProject (r : RegistryState) (p : String)
    (meta : Option (Option String)) (q : String) :
    projectStoreOf (ensureProject r p meta) q =
      if q = p then some (ensureStore (projectStoreOf r p) p meta)
      else projectStoreOf r q :=
  projectStoreOf_upsert r.projects r.currentProject p
    (ensureStore (projectStoreOf r p) p meta) q

lemma ensureStore_agentsFile (cur : Option ProjectStore) (p : String)
    (meta : Option (Option String)) :
    (ensureStore cur p meta).agentsFile = some ((cur.getD {}).agentsFile.getD []) := by
  unfold ensureStore
  rcases hm : (cur.getD {}).meta with _ | m <;>
    rcases ha : (cur.getD {}).agentsFile with _ | l <;>
    rcases meta with _ | c <;>
    simp [hm, ha]

/-- `ensureProject` never changes what `loadAgents` returns, for any
project: an absent `agents.json` is initialised to the same empty list
`loadAgents` already falls back to. -/
lemma loadAgents_ensureProject (r : RegistryState) (p : String)
    (meta : Option (Option String)) (q : String) :
    loadAgents (ensureProject r p meta) q = loadAgents r q := by
  unfold loadAgents
  rw [projectStoreOf_ensureProject]
  by_cases hq : q = p
  · subst hq
    rw [if_pos rfl]
    rcases h : projectStoreOf r q with _ | st <;>
      simp [ensureStore_agentsFile, h]
  · rw [if_neg hq]

lemma loadAgents_saveAgents (r : RegistryState) (p : String)
    (agents : List AgentEntry) (q : String) :
    loadAgents (saveAgents r p agents) q =
      if q = p then agents else loadAgents r q := by
  unfold loadAgents saveAgents
  rw [projectStoreOf_upsert]
  by_cases hq : q = p
  · subst hq; simp
  · rw [if_neg hq, if_neg hq]

lemma agentsFileOf_saveAgents_self (r : RegistryState) (p : String)
    (agents : List AgentEntry) :
    agentsFileOf (saveAgents r p agents) p = some agents := by
  unfold agentsFileOf saveAgents
  rw [projectStoreOf_upsert]
  simp

/-- Claim C3 (derived liveness in `list_agents`): every returned entry
carries `alive = true` exactly when its recorded window id is present in
the backend's live window-id list for the project's session (taken
empty when the session does not exist), and the entries themselves are
exactly the stored registry entries — `alive` is derived, not read from
storage (the iff determines it from the window id and the live set
alone, for every stored `aliveStored` value), and `list_agents` writes
nothing. The hypothesis `hwf` states that live tmux window ids are
non-empty strings, which tmux's `@N` id format guarantees. -/
theorem c3_derived_liveness (s : MuxState) (parg : Option String)
    (project : String) (out : List (AgentEntry × Bool))
    (h : list_agents s parg = .ok (project, out))
    (hwf : ∀ w ∈ listWindows s.tmux project, w.windowId ≠ "") :
    out.map Prod.fst = loadAgents s.registry project ∧
    ∀ p ∈ out,
      (p.2 = true ↔
        p.1.windowId ∈
          (if hasSession s.tmux project then
            (listWindows s.tmux project).map (·.windowId) else [])) := by
  simp only [list_agents] at h
  split at h
  · simp at h
  · next proj hproj =>
    simp only [Except.ok.injEq, Prod.mk.injEq] at h
    obtain ⟨rfl, rfl⟩ := h
    refine ⟨by simp [Function.comp_def], ?_⟩
    intro p hp
    simp only [List.mem_map] at hp
    obtain ⟨a, ha, rfl⟩ := hp
    by_cases hid : a.windowId = ""
    · have hbe : (a.windowId == "") = true := by simpa using hid
      simp only [hbe, Bool.not_true, Bool.false_eq_true, if_false]
      constructor
      · intro hF; exact absurd hF (by simp)
      · intro hmem
        exfalso
        by_cases hs : hasSession s.tmux proj
        · rw [if_pos hs] at hmem
          simp only [List.mem_map] at hmem
          obtain ⟨b, hb, hbid⟩ := hmem
          exact hwf b hb (hid ▸ hbid)
        · rw [if_neg hs] at hmem
          simp at hmem
    · have hbe : (a.windowId == "") = false := by simpa using hid
      simp only [hbe, Bool.not_false, if_true]
      exact List.elem_iff

/-- Witness for C3: in `wState2` the registered agent `a1` is reported
alive because its window id `@1` is in the live list. -/
theorem c3_derived_liveness_witness :
    ([(wEntry1, true)] : List (AgentEntry × Bool)).map Prod.fst =
      loadAgents wState2.registry "p" ∧
    ∀ p ∈ ([(wEntry1, true)] : List (AgentEntry × Bool)),
      (p.2 = true ↔
        p.1.windowId ∈
          (if hasSession wState2.tmux "p" then
            (listWindows wState2.tmux "p").map (·.windowId) else [])) :=
  c3_derived_liveness wState2 (some "p") "p" [(wEntry1, true)]
    (by decide) (by decide)

/-- Claim C4 (duplicate-spawn atomicity): with a current project, a
valid agent name already present in the project's registry, a valid
type and an existing session, `spawn_agent` fails with
`AgentAlreadyExists` and mutates neither any project's agent list nor
the backend state (no window is created; the original entry and its
window are untouched). -/
theorem c4_duplicate_spawn (s : MuxState) (ty nm : String) (opts : SpawnOptions)
    (project agentName : String)
    (hcur : requireCurrentProject s.registry = .ok project)
    (hname : assertSafeName "agent" nm = .ok agentName)
    (hty : ALLOWED_AGENT_TYPES.contains (jsTrim ty) = true)
    (hsess : hasSession s.tmux project = true)
    (hdup : (loadAgents s.registry project).any (fun a => a.name == agentName) = true) :
    (spawn_agent s ty nm opts).2 = .error (.agentAlreadyExists agentName project) ∧
    (∀ q, loadAgents (spawn_agent s ty nm opts).1.registry q = loadAgents s.registry q) ∧
    (spawn_agent s ty nm opts).1.tmux = s.tmux := by
  have hdup' : ((loadAgents (ensureProject s.registry project none) project).any
      (fun a => a.name == agentName)) = true := by
    rw [loadAgents_ensureProject]; exact hdup
  have hspawn : spawn_agent s ty nm opts =
      ({ s with registry := ensureProject s.registry project none },
        .error (.agentAlreadyExists agentName project)) := by
    simp only [spawn_agent, hcur, hname, hty, hsess, hdup', Bool.not_true,
      Bool.false_eq_true, if_false, if_true]
  rw [hspawn]
  exact ⟨rfl, fun q => loadAgents_ensureProject s.registry project none q, rfl⟩

/-- Witness for C4: re-spawning `a1` in `wState2` fails and changes
nothing. -/
theorem c4_duplicate_spawn_witness :
    (spawn_agent wState2 "claude" "a1" ⟨none, none, none, none⟩).2 =
      .error (.agentAlreadyExists "a1" "p") ∧
    (∀ q, loadAgents (spawn_agent wState2 "claude" "a1" ⟨none, none, none, none⟩).1.registry q =
      loadAgents wState2.registry q) ∧
    (spawn_agent wState2 "claude" "a1" ⟨none, none, none, none⟩).1.tmux = wState2.tmux :=
  c4_duplicate_spawn wState2 "claude" "a1" ⟨none, none, none, none⟩ "p" "a1"
    (by decide) (by decide) (by decide) (by decide) (by decide)

/-- Claim C5 (`kill_agent` best-effort on the backend, unconditional on
the registry): for every registered agent — with NO hypothesis on the
backend state, so in particular when the agent's window was already
removed out-of-band — `kill_agent` succeeds, removes exactly that
agent's entries from the project's agent list, persists the new list to
the project's `agents.json`, and leaves other projects' lists alone. A
backend `kill-window` failure is caught inside `kill_agent` and never
reaches the caller. -/
theorem c5_kill_agent (s : MuxState) (nm project agentName : String) (agent : AgentEntry)
    (hcur : requireCurrentProject s.registry = .ok project)
    (hname : assertSafeName "agent" nm = .ok agentName)
    (hfound : (loadAgents s.registry project).find? (fun a => a.name == agentName) =
      some agent) :
    (kill_agent s nm).2 = .ok (project, agentName) ∧
    loadAgents (kill_agent s nm).1.registry project =
      (loadAgents s.registry project).filter (fun a => !(a.name == agentName)) ∧
    agentsFileOf (kill_agent s nm).1.registry project =
      some ((loadAgents s.registry project).filter (fun a => !(a.name == agentName))) ∧
    (∀ q, ¬ q = project →
      loadAgents (kill_agent s nm).1.registry q = loadAgents s.registry q) := by
  simp only [kill_agent, hcur, hname, hfound]
  refine ⟨by trivial, ?_, ?_, ?_⟩
  · rw [loadAgents_saveAgents]
    simp
  · exact agentsFileOf_saveAgents_self _ _ _
  · intro q hq
    rw [loadAgents_saveAgents, if_neg hq]

/-- Witness for C5: killing `a1` in `wStateDead`, whose window is
already gone, still succeeds and empties the registry list. -/
theorem c5_kill_agent_witness :
    (kill_agent wStateDead "a1").2 = .ok ("p", "a1") ∧
    loadAgents (kill_agent wStateDead "a1").1.registry "p" =
      (loadAgents wStateDead.registry "p").filter (fun a => !(a.name == "a1")) ∧
    agentsFileOf (kill_agent wStateDead "a1").1.registry "p" =
      some ((loadAgents wStateDead.registry "p").filter (fun a => !(a.name == "a1"))) ∧
    (∀ q, ¬ q = "p" →
      loadAgents (kill_agent wStateDead "a1").1.registry q =
        loadAgents wStateDead.registry q) :=
  c5_kill_agent wStateDead "a1" "p" "a1" wEntry1 (by decide) (by decide) (by decide)

/-! Helper lemmas about `createSession` and entry counts, for the
`create_project` idempotence claim. -/

lemma createSession_snd (t : TmuxState) (n : String) :
    (createSession t n).2 = !(hasSession t n) := by
  unfold createSession
  by_cases h : hasSession t n <;> simp [h]

lemma createSession_of_hasSession (t : TmuxState) (n : String)
    (h : hasSession t n = true) : createSession t n = (t, false) := by
  simp [createSession, h]

lemma hasSession_createSession_self (t : TmuxState) (n : String) :
    hasSession (createSession t n).1 n = true := by
  unfold createSession
  by_cases h : hasSession t n
  · simpa [h] using h
  · simp only [h, Bool.false_eq_true, if_false]
    simp [hasSession, List.any_append]

lemma upsertStore_count (p : String) (st : ProjectStore) :
    ∀ ps : List (String × ProjectStore),
    (ps.filter (fun q => q.1 == p)).length ≤ 1 →
    ((upsertStore ps p st).filter (fun q => q.1 == p)).length = 1 := by
  intro ps
  induction ps with
  | nil => intro _; simp [upsertStore]
  | cons hd tl ih =>
    intro hle
    by_cases h : hd.1 = p
    · have hb : (hd.1 == p) = true := by simpa using h
      simp only [List.filter_cons, hb, if_true, List.length_cons] at hle
      have htl : (tl.filter (fun q => q.1 == p)).length = 0 := by omega
      simp only [upsertStore, hb, if_true]
      simp [List.filter_cons, htl]
    · have hb : (hd.1 == p) = false := by simpa using h
      simp only [List.filter_cons, hb, Bool.false_eq_true, if_false] at hle
      simp only [upsertStore, hb, Bool.false_eq_true, if_false]
      simp only [List.filter_cons, hb, Bool.false_eq_true, if_false]
      exact ih hle

/-- Claim C6 (`create_project` idempotence): for a valid project name
whose session does not exist yet (and whose registry holds at most one
directory entry for it, as a filesystem does), the first call returns
`created = true`, an immediate second call returns `created = false`,
the registry ends with exactly one directory entry for the project (no
duplicated files), and the second call's `createSession` returns
`created = false` without error and without touching the backend
state. -/
theorem c6_create_project_idempotent (s : MuxState) (nm project : String)
    (cwd : Option String)
    (hname : assertSafeName "project" nm = .ok project)
    (hns : hasSession s.tmux project = false)
    (hwf : (s.registry.projects.filter (fun q => q.1 == project)).length ≤ 1) :
    (∃ r1, (create_project s nm cwd).2 = .ok r1 ∧ r1.created = true) ∧
    (∃ r2, (create_project (create_project s nm cwd).1 nm cwd).2 = .ok r2 ∧
      r2.created = false) ∧
    ((create_project (create_project s nm cwd).1 nm cwd).1.registry.projects.filter
      (fun q => q.1 == project)).length = 1 ∧
    createSession (create_project s nm cwd).1.tmux project =
      ((create_project s nm cwd).1.tmux, false) := by
  rcases hcs : createSession s.tmux project with ⟨t1, created⟩
  have hcreated : created = true := by
    have h0 := createSession_snd s.tmux project
    rw [hcs] at h0
    simpa [hns] using h0
  subst hcreated
  have h1 : create_project s nm cwd =
      ({ s with tmux := t1
                registry := setCurrentProject
                  (ensureProject s.registry project
                    (some (if jsTruthy cwd then some (path_resolve (cwd.getD "")) else none)))
                  project },
        .ok ⟨project, (if jsTruthy cwd then some (path_resolve (cwd.getD "")) else none), true⟩) := by
    simp only [create_project, hname, hcs]
  have hs1sess : hasSession t1 project = true := by
    have h0 := hasSession_createSession_self s.tmux project
    rw [hcs] at h0
    exact h0
  have hcs2 : createSession t1 project = (t1, false) :=
    createSession_of_hasSession t1 project hs1sess
  rw [h1]
  have h2 : create_project
      ({ s with tmux := t1
                registry := setCurrentProject
                  (ensureProject s.registry project
                    (some (if jsTruthy cwd then some (path_resolve (cwd.getD "")) else none)))
                  project })
      nm cwd =
      ({ s with tmux := t1
                registry := setCurrentProject
                  (ensureProject
                    (setCurrentProject
                      (ensureProject s.registry project
                        (some (if jsTruthy cwd then some (path_resolve (cwd.getD "")) else none)))
                      project)
                    project
                    (some (if jsTruthy cwd then some (path_resolve (cwd.getD "")) else none)))
                  project },
        .ok ⟨project, (if jsTruthy cwd then some (path_resolve (cwd.getD "")) else none), false⟩) := by
    simp only [create_project, hname, hcs2]
  rw [h2]
  refine ⟨⟨_, rfl, rfl⟩, ⟨_, rfl, rfl⟩, ?_, hcs2⟩
  have hc1 : ((upsertStore s.registry.projects project
      (ensureStore (projectStoreOf s.registry project)
        project
        (some (if jsTruthy cwd then some (path_resolve (cwd.getD "")) else none)))).filter
      (fun q => q.1 == project)).length = 1 :=
    upsertStore_count project _ s.registry.projects hwf
  exact upsertStore_count project _ _ (le_of_eq hc1)

/-- Witness for C6: creating project `q` twice from `wState`. -/
theorem c6_create_project_idempotent_witness :
    (∃ r1, (create_project wState "q" none).2 = .ok r1 ∧ r1.created = true) ∧
    (∃ r2, (create_project (create_project wState "q" none).1 "q" none).2 = .ok r2 ∧
      r2.created = false) ∧
    ((create_project (create_project wState "q" none).1 "q" none).1.registry.projects.filter
      (fun q0 => q0.1 == "q")).length = 1 ∧
    createSession (create_project wState "q" none).1.tmux "q" =
      ((create_project wState "q" none).1.tmux, false) :=
  c6_create_project_idempotent wState "q" "q" none (by decide) (by decide) (by decide)

/-- Claim C8 (`close_project` frame): for every valid project name, the
call succeeds reporting `killed` exactly when the session existed, the
session is gone afterwards (best-effort kill), ALL registry project
files are left in place (the project-directory store is unchanged), and
the current-project pointer is cleared if and only if it named the
closed project. -/
theorem c8_close_project_frame (s : MuxState) (nm project : String)
    (hname : assertSafeName "project" nm = .ok project) :
    (close_project s nm).2 =
      .ok ⟨project, hasSession s.tmux project,
        getCurrentProject s.registry == some project⟩ ∧
    (close_project s nm).1.registry.projects = s.registry.projects ∧
    hasSession (close_project s nm).1.tmux project = false ∧
    (getCurrentProject s.registry = some project →
      getCurrentProject (close_project s nm).1.registry = none) ∧
    (¬ getCurrentProject s.registry = some project →
      getCurrentProject (close_project s nm).1.registry =
        getCurrentProject s.registry) := by
  have hnosess : hasSession
      { s.tmux with
          sessions := s.tmux.sessions.filter (fun q => !(q.name == project)) }
      project = false := by
    simp only [hasSession]
    apply List.any_eq_false.mpr
    intro x hx
    simp only [List.mem_filter] at hx
    simpa using hx.2
  by_cases hs : hasSession s.tmux project
  · have hkill : killSession s.tmux project =
        .ok { s.tmux with
                sessions := s.tmux.sessions.filter (fun q => !(q.name == project)) } := by
      simp [killSession, hs]
    by_cases hc : getCurrentProject s.registry == some project
    · have h1 : close_project s nm =
          ({ s with
              tmux := { s.tmux with
                sessions := s.tmux.sessions.filter (fun q => !(q.name == project)) }
              registry := clearCurrentProject s.registry },
            .ok ⟨project, true, true⟩) := by
        simp only [close_project, hname, hs, if_true, hkill, hc]
      rw [h1]
      exact ⟨by rw [hs, hc], rfl, hnosess, fun _ => rfl,
        fun hcontra => absurd (by simpa using hc) hcontra⟩
    · have hc' : (getCurrentProject s.registry == some project) = false := by
        simpa using hc
      have h1 : close_project s nm =
          ({ s with
              tmux := { s.tmux with
                sessions := s.tmux.sessions.filter (fun q => !(q.name == project)) } },
            .ok ⟨project, true, false⟩) := by
        simp only [close_project, hname, hs, if_true, hkill, hc',
          Bool.false_eq_true, if_false]
      rw [h1]
      exact ⟨by rw [hs, hc'], rfl, hnosess,
        fun hcontra => absurd hcontra (by simpa using hc), fun _ => rfl⟩
  · have hs' : hasSession s.tmux project = false := by simpa using hs
    by_cases hc : getCurrentProject s.registry == some project
    · have h1 : close_project s nm =
          ({ s with registry := clearCurrentProject s.registry },
            .ok ⟨project, false, true⟩) := by
        simp only [close_project, hname, hs', Bool.false_eq_true, if_false, hc, if_true]
      rw [h1]
      exact ⟨by rw [hs', hc], rfl, hs', fun _ => rfl,
        fun hcontra => absurd (by simpa using hc) hcontra⟩
    · have hc' : (getCurrentProject s.registry == some project) = false := by
        simpa using hc
      have h1 : close_project s nm = (s, .ok ⟨project, false, false⟩) := by
        simp only [close_project, hname, hs', Bool.false_eq_true, if_false, hc']
      rw [h1]
      exact ⟨by rw [hs', hc'], rfl, hs',
        fun hcontra => absurd hcontra (by simpa using hc), fun _ => rfl⟩

/-- Witness for C8: closing `p` in `wState2`, where `p` is current and
its session exists. -/
theorem c8_close_project_frame_witness :
    (close_project wState2 "p").2 =
      .ok ⟨"p", hasSession wState2.tmux "p",
        getCurrentProject wState2.registry == some "p"⟩ ∧
    (close_project wState2 "p").1.registry.projects = wState2.registry.projects ∧
    hasSession (close_project wState2 "p").1.tmux "p" = false ∧
    (getCurrentProject wState2.registry = some "p" →
      getCurrentProject (close_project wState2 "p").1.registry = none) ∧
    (¬ getCurrentProject wState2.registry = some "p" →
      getCurrentProject (close_project wState2 "p").1.registry =
        getCurrentProject wState2.registry) :=
  c8_close_project_frame wState2 "p" "p" (by decide)

/-- Counterexample to claim C9 as stated: with a requested line count of
`N = 0`, `read_agent_output` returns ALL non-blank captured lines (two
of them here), not "the trailing at-most-0" — JavaScript `slice(-0)` is
`slice(0)`, the whole array. -/
theorem c9_read_output_counterexample :
    read_agent_output wState2 wCapture "a1" 0 = .ok ("p", "a1", "x\ny") ∧
    ¬ (((jsSplitLines "x\ny").filter (fun l => 0 < (jsTrim l).length)).length ≤ 0) := by
  decide

/-- Claim C9 amended to requested line counts `N ≥ 1`: a successful
`read_agent_output` captures the pane with a scrollback window of
`max(10*N, 2000)` lines (at least both bounds), and the returned output
is exactly the trailing at-most-`N` lines, all non-blank, of the
blank-line-filtered captured text, joined by newlines. -/
theorem c9_read_output (s : MuxState) (capture : String → Nat → String)
    (nm : String) (N : Nat) (hN : 1 ≤ N)
    (project agentName out : String)
    (h : read_agent_output s capture nm N = .ok (project, agentName, out)) :
    ∃ (paneId : String) (ls : List String),
      10 * N ≤ max (N * 10) 2000 ∧
      2000 ≤ max (N * 10) 2000 ∧
      ls = ((jsSplitLines (capture paneId (max (N * 10) 2000))).filter
        (fun l => 0 < (jsTrim l).length)).drop
          (((jsSplitLines (capture paneId (max (N * 10) 2000))).filter
            (fun l => 0 < (jsTrim l).length)).length - N) ∧
      ls.length ≤ N ∧
      (∀ l ∈ ls, 0 < (jsTrim l).length) ∧
      out = String.intercalate "\n" ls := by
  have hslice : ∀ (l : List String), jsSliceNeg l N = l.drop (l.length - N) := by
    intro l
    unfold jsSliceNeg
    rw [if_neg (by omega)]
  simp only [read_agent_output] at h
  split at h
  · simp at h
  next proj hcur =>
  split at h
  · simp at h
  next an hname =>
  split at h
  · simp at h
  next ag hfound =>
  split at h
  · simp at h
  next pid hpid =>
  simp only [Except.ok.injEq, Prod.mk.injEq] at h
  obtain ⟨rfl, rfl, hout⟩ := h
  refine ⟨pid, _, by omega, Nat.le_max_right _ _, rfl, ?_, ?_, ?_⟩
  · rw [List.length_drop]
    omega
  · intro l hl
    have hl' := List.drop_subset _ _ hl
    exact of_decide_eq_true (List.mem_filter.mp hl').2
  · rw [← hout, hslice]

/-- Witness for C9 amended: reading one line from `a1` under the
two-line capture oracle returns the single trailing non-blank line. -/
theorem c9_read_output_witness :
    ∃ (paneId : String) (ls : List String),
      10 * 1 ≤ max (1 * 10) 2000 ∧
      2000 ≤ max (1 * 10) 2000 ∧
      ls = ((jsSplitLines (wCapture paneId (max (1 * 10) 2000))).filter
        (fun l => 0 < (jsTrim l).length)).drop
          (((jsSplitLines (wCapture paneId (max (1 * 10) 2000))).filter
            (fun l => 0 < (jsTrim l).length)).length - 1) ∧
      ls.length ≤ 1 ∧
      (∀ l ∈ ls, 0 < (jsTrim l).length) ∧
      "y" = String.intercalate "\n" ls :=
  c9_read_output wState2 wCapture "a1" 1 (by decide) "p" "a1" "y" (by decide)

/-- `_requireCurrentProject` can only fail with `NoCurrentProject`. -/
lemma requireCurrentProject_error (r : RegistryState) (e : MuxError)
    (h : requireCurrentProject r = .error e) : e = .noCurrentProject := by
  unfold requireCurrentProject at h
  split at h <;> simp_all

/-- Claim C10 (implicit: `send_to_window` validates nothing): for EVERY
window-name string — including ones violating the name grammar —
`send_to_window` never raises `InvalidName` or `AgentNotFound`: it
leaves the state unchanged, any error is either the missing
current-project precondition or a backend command failure, and when a
current project exists it succeeds exactly when the backend target
`<project>:<windowName>` resolves. -/
theorem c10_send_to_window (s : MuxState) (w text : String) :
    (send_to_window s w text).1 = s ∧
    (∀ e, (send_to_window s w text).2 = .error e →
      e = .noCurrentProject ∨ ∃ msg, e = .backendCommandError msg) ∧
    (∀ project, requireCurrentProject s.registry = .ok project →
      ((send_to_window s w text).2 = .ok ⟨project, w, text.utf8ByteSize⟩ ↔
        targetResolves s.tmux (project ++ ":" ++ w) = true)) := by
  rcases hcur : requireCurrentProject s.registry with e0 | project
  · have h1 : send_to_window s w text = (s, .error e0) := by
      simp only [send_to_window, hcur]
    rw [h1]
    refine ⟨rfl, ?_, ?_⟩
    · intro e he
      simp only [Except.error.injEq] at he
      exact Or.inl (he ▸ requireCurrentProject_error s.registry e0 hcur)
    · intro p hp
      simp at hp
  · by_cases ht : targetResolves s.tmux (project ++ ":" ++ w)
    · have hsk : sendKeys s.tmux (project ++ ":" ++ w) = .ok () := by
        simp [sendKeys, ht]
      have h1 : send_to_window s w text =
          (s, .ok ⟨project, w, text.utf8ByteSize⟩) := by
        simp only [send_to_window, hcur, hsk]
      rw [h1]
      refine ⟨rfl, ?_, ?_⟩
      · intro e he
        simp at he
      · intro p hp
        simp only [Except.ok.injEq] at hp
        subst hp
        exact ⟨fun _ => ht, fun _ => rfl⟩
    · have ht' : targetResolves s.tmux (project ++ ":" ++ w) = false := by
        simpa using ht
      have hsk : sendKeys s.tmux (project ++ ":" ++ w) =
          .error (.backendCommandError ("send-keys -t " ++ (project ++ ":" ++ w))) := by
        simp [sendKeys, ht']
      have h1 : send_to_window s w text =
          (s, .error (.backendCommandError ("send-keys -t " ++ (project ++ ":" ++ w)))) := by
        simp only [send_to_window, hcur, hsk]
      rw [h1]
      refine ⟨rfl, ?_, ?_⟩
      · intro e he
        simp only [Except.error.injEq] at he
        exact Or.inr ⟨_, he.symm⟩
      · intro p hp
        simp only [Except.ok.injEq] at hp
        subst hp
        constructor
        · intro hok; simp at hok
        · intro hres
          exact absurd hres (by simp [ht'])

/-- Witness for C10: sending to window `bad name!` — a name the
project/agent grammar rejects — succeeds in `wState2`, where such a
window exists out-of-band. -/
theorem c10_send_to_window_witness :
    (send_to_window wState2 "bad name!" "hi").2 = .ok ⟨"p", "bad name!", 2⟩ ∧
    (send_to_window wState2 "bad name!" "hi").1 = wState2 := by
  have h := c10_send_to_window wState2 "bad name!" "hi"
  exact ⟨by decide, h.1⟩
